import Mathlib

/-!
Shallow embedding of the repository-lifecycle engine of the terraform
provider (Go package `repository`, file src/unnamed/part_001), together
with theorems settling the frozen claims about it.

Modelling conventions:
* A Go `(resp *resty.Response, err error)` pair is the inductive
  `RestyResult`: the shared HTTP client surfaces HTTP error statuses as a
  Go error carrying the response (`errWithResp status msg`), transport
  failures as an error with no response (`errNoResp msg`), and success as
  `ok body` where `body` is the decoded payload, kept opaque as a string.
* The Terraform `*schema.ResourceData` is the record `ResourceData`:
  the stored identity (`d.Id()` / `d.SetId`) plus the old/new pair and
  changed flag of the `project_key` field (`d.GetChange`, `d.HasChange`).
* Each engine operation returns the list of HTTP calls it issued (in
  order), the resulting `ResourceData`, and the diagnostics
  (`none` = success, `some msg` = the error surfaced via `diag.FromErr`).
* Pack/unpack/constructor codecs are parameters, exactly as in
  `MkRepoCreate`/`MkRepoRead`/`MkRepoUpdate`.
-/

/-- HTTP verb of a request issued through the resty client. -/
inductive HttpMethod where
  | get
  | put
  | post
  | delete
  | head
deriving DecidableEq, Repr

/-- One HTTP request issued by the engine: verb, endpoint template, path
parameters set with SetPathParam(s), and optional body. -/
structure HttpCall where
  method : HttpMethod
  path : String
  pathParams : List (String × String)
  body : Option String := none
deriving DecidableEq, Repr

/-- Outcome of a resty call as the engine observes it: `ok` is a nil Go
error (decoded body kept as an opaque string); `errWithResp` is a non-nil
error together with a response exposing StatusCode(); `errNoResp` is a
non-nil error with a nil response. -/
inductive RestyResult where
  | ok (body : String)
  | errWithResp (status : Nat) (msg : String)
  | errNoResp (msg : String)
deriving DecidableEq, Repr

/-- The slice of `*schema.ResourceData` the engine reads and writes: the
stored identity and the diff information of the `project_key` field. -/
structure ResourceData where
  id : String
  projectKeyOld : String
  projectKeyNew : String
  projectKeyChanged : Bool
deriving DecidableEq, Repr

/-- Endpoint constant `RepositoriesEndpoint` of the source. -/
def RepositoriesEndpoint : String := "artifactory/api/repositories/\x7bkey\x7d"

/-- Endpoint used by `assignRepoToProject`. -/
def attachEndpoint : String :=
  "access/api/v1/projects/_/attach/repositories/\x7brepoKey\x7d/\x7bprojectKey\x7d"

/-- Endpoint used by `unassignRepoFromProject`. -/
def detachEndpoint : String := "access/api/v1/projects/_/attach/repositories/\x7brepoKey\x7d"

/-- Constant `defaultProjectKey` of the source. -/
def defaultProjectKey : String := "default"

/-- The GET request issued by `MkRepoRead`. -/
def repoGetCall (key : String) : HttpCall :=
  { method := .get, path := RepositoriesEndpoint, pathParams := [("key", key)] }

/-- The PUT request issued by `MkRepoCreate`. -/
def repoPutCall (key : String) (body : String) : HttpCall :=
  { method := .put, path := RepositoriesEndpoint, pathParams := [("key", key)],
    body := some body }

/-- The POST request issued by `MkRepoUpdate`. -/
def repoPostCall (key : String) (body : String) : HttpCall :=
  { method := .post, path := RepositoriesEndpoint, pathParams := [("key", key)],
    body := some body }

/-- The DELETE request issued by `DeleteRepo`. -/
def repoDeleteCall (key : String) : HttpCall :=
  { method := .delete, path := RepositoriesEndpoint, pathParams := [("key", key)] }

/-- The project attach request issued by the source function
`assignRepoToProject` (PUT on the attach endpoint with path params
repoKey and projectKey). -/
def assignRepoToProject (repoKey : String) (projectKey : String) : HttpCall :=
  { method := .put, path := attachEndpoint,
    pathParams := [("repoKey", repoKey), ("projectKey", projectKey)] }

/-- The project detach request issued by the source function
`unassignRepoFromProject` (DELETE on the detach endpoint with path param
repoKey). -/
def unassignRepoFromProject (repoKey : String) : HttpCall :=
  { method := .delete, path := detachEndpoint, pathParams := [("repoKey", repoKey)] }

/-- True for requests aimed at the project attach endpoint. -/
def isProjectAttachCall (c : HttpCall) : Bool := c.path == attachEndpoint

/-- True for requests aimed at the project detach endpoint. -/
def isProjectDetachCall (c : HttpCall) : Bool := c.path == detachEndpoint

/-- Embedding of the Go validator combinator
validation.StringDoesNotMatch(regexp "^[0-9].*"): true (accepted) iff the
string does not start with a decimal digit. -/
def StringDoesNotMatchLeadingDigit (s : String) : Bool :=
  match s.toList with
  | [] => true
  | c :: _ => !c.isDigit

/-- The character set passed to validation.StringDoesNotContainAny in
`RepoKeyValidator` (space, punctuation, backtick, backslash). -/
def repoKeyForbiddenChars : List Char :=
  " !@#$%^&*()+=\x7b\x7d[]:;<>,/?~`|\\".toList

/-- Embedding of validation.StringDoesNotContainAny: true (accepted) iff
the string contains none of the given characters. -/
def StringDoesNotContainAny (chars : List Char) (s : String) : Bool :=
  !(s.toList.any (fun c => chars.contains c))

/-- Embedding of the source's `RepoKeyValidator`
(validation.All of the two combinators above); true means the candidate
key is accepted. -/
def RepoKeyValidator (s : String) : Bool :=
  StringDoesNotMatchLeadingDigit s && StringDoesNotContainAny repoKeyForbiddenChars s

/-- A parsed semantic version (major, minor, patch). -/
structure Version where
  major : Nat
  minor : Nat
  patch : Nat
deriving DecidableEq, Repr

/-- Modelled from the spec: the greater-or-equal comparison performed by
the shared utility CheckVersion (external repo jfrog/terraform-provider-shared,
not under src/); spec section 4.4 describes a version-gated rule keyed on
the server version being at or after a threshold, which is the usual
lexicographic order on (major, minor, patch). -/
def versionAtLeast (v w : Version) : Bool :=
  v.major > w.major ||
    (v.major == w.major &&
      (v.minor > w.minor || (v.minor == w.minor && v.patch >= w.patch)))

/-- Modelled from the spec: the shared utility utilsdk.CheckVersion
(external to this repository). The current server version is `none` when
its string form does not parse, in which case CheckVersion reports an
error, modelled as `none`. -/
def CheckVersion (current : Option Version) (target : Version) : Option Bool :=
  current.map (fun v => versionAtLeast v target)

/-- Constant `CustomProjectEnvironmentSupportedVersion` ("7.53.1") of the
source, as a parsed version. -/
def CustomProjectEnvironmentSupportedVersion : Version := ⟨7, 53, 1⟩

/-- Constant `ProjectEnvironmentsSupported` of the source. -/
def ProjectEnvironmentsSupported : List String := ["DEV", "PROD"]

/-- Embedding of the source's `ProjectEnvironmentsDiff` CustomizeDiff
hook. `projectEnvironments` is `none` when diff.GetOk reports the field
as unset, `some envs` otherwise; `artifactoryVersion` is the parsed
server version (`none` when unparsable). Returns `none` for no error, or
`some msg` with the error message the Go code formats. -/
def ProjectEnvironmentsDiff (artifactoryVersion : Option Version)
    (projectEnvironments : Option (List String)) : Option String :=
  match projectEnvironments with
  | none => none
  | some projectEnvironments =>
    match CheckVersion artifactoryVersion CustomProjectEnvironmentSupportedVersion with
    | none => some "Failed to check version"
    | some isSupported =>
      if isSupported then
        if projectEnvironments.length == 2 then
          some "For Artifactory 7.53.1 or later, only one environment can be assigned to a repository."
        else
          none
      else
        match projectEnvironments.find?
            (fun e => !(ProjectEnvironmentsSupported.contains e)) with
        | some e => some ("project_environment " ++ e ++ " not allowed")
        | none => none

/-- The struct `SupportedRepoClasses` of the source; the Go
map[string]bool of supported repository types becomes an association
list. -/
structure SupportedRepoClasses where
  RepoLayoutRef : String
  SupportedRepoTypes : List (String × Bool)
deriving DecidableEq, Repr

/-- Modelled from the spec: the static compatibility table
`defaultRepoLayoutMap` lives in a file of this repository that is not
under src/; spec sections 4.3 and 8(5) describe it as a static map from
package type to (default layout value, set of supported repository
types), with ("local", "maven") a supported pair, and the source comment
on repo_layout_ref names maven-2-default as the API default for maven. -/
def defaultRepoLayoutMap : List (String × SupportedRepoClasses) :=
  [("maven",
    { RepoLayoutRef := "maven-2-default",
      SupportedRepoTypes :=
        [("local", true), ("remote", true), ("virtual", true), ("federated", true)] }),
   ("generic",
    { RepoLayoutRef := "simple-default",
      SupportedRepoTypes :=
        [("local", true), ("remote", true), ("virtual", true), ("federated", true)] }),
   ("npm",
    { RepoLayoutRef := "npm-default",
      SupportedRepoTypes :=
        [("local", true), ("remote", true), ("virtual", true), ("federated", true)] })]

/-- Embedding of the source's `GetDefaultRepoLayoutRef`: a pure lookup in
`defaultRepoLayoutMap`, returning the layout when the repository type is
marked supported (`ok && v` in Go) and the formatted error otherwise.
A missing package type gives the zero value whose nil inner map makes the
lookup fail, hence the same error. -/
def GetDefaultRepoLayoutRef (repositoryType : String) (packageType : String) :
    Except String String :=
  match defaultRepoLayoutMap.lookup packageType with
  | some classes =>
    match classes.SupportedRepoTypes.lookup repositoryType with
    | some true => Except.ok classes.RepoLayoutRef
    | _ => Except.error ("default repo layout not found for repository type "
        ++ repositoryType ++ " & package type " ++ packageType)
  | none => Except.error ("default repo layout not found for repository type "
      ++ repositoryType ++ " & package type " ++ packageType)

/-- Mirrors the Go guard `ok && v` of `GetDefaultRepoLayoutRef`: true iff
the (repository type, package type) pair is marked supported in the
table. -/
def repoLayoutSupported (repositoryType : String) (packageType : String) : Bool :=
  match defaultRepoLayoutMap.lookup packageType with
  | some classes => classes.SupportedRepoTypes.lookup repositoryType == some true
  | none => false

/-- Embedding of the source's `HandleResetWithNonExistentValue`. `value`
is the string d.GetString fetches for the key, `hasChange` is
d.HasChange(key), and `randomInt` is the value testutil.RandomInt would
draw; the Go function formats it after the fixed sentinel prefix. -/
def HandleResetWithNonExistentValue (value : String) (hasChange : Bool)
    (randomInt : Nat) : String :=
  if value == "" && hasChange then
    "non-existant-value-" ++ toString randomInt
  else
    value

/-- Embedding of the source's `MkRepoRead`: constructor first, then a GET
with the stored identity as the key path parameter; a Go error whose
response has status 400 or 404 clears the identity and returns success;
any other error is surfaced; on success the payload is packed into the
state. -/
def MkRepoRead (pack : String → ResourceData → Except String ResourceData)
    (construct : Except String String)
    (client : HttpCall → RestyResult)
    (d : ResourceData) : List HttpCall × ResourceData × Option String :=
  match construct with
  | .error e => ([], d, some e)
  | .ok _ =>
    match client (repoGetCall d.id) with
    | .ok body =>
      match pack body d with
      | .ok d2 => ([repoGetCall d.id], d2, none)
      | .error e => ([repoGetCall d.id], d, some e)
    | .errWithResp status msg =>
      if status == 400 || status == 404 then
        ([repoGetCall d.id], { d with id := "" }, none)
      else
        ([repoGetCall d.id], d, some msg)
    | .errNoResp msg => ([repoGetCall d.id], d, some msg)

/-- Embedding of the source's `MkRepoCreate`: unpack first (an error
aborts with a diagnostic and no HTTP call), then a PUT keyed by the
unpacked key; an error aborts; on success the identity is set to the key
and the read function finishes the operation. -/
def MkRepoCreate (unpack : ResourceData → Except String (String × String))
    (read : ResourceData → List HttpCall × ResourceData × Option String)
    (client : HttpCall → RestyResult)
    (d : ResourceData) : List HttpCall × ResourceData × Option String :=
  match unpack d with
  | .error e => ([], d, some e)
  | .ok (repo, key) =>
    match client (repoPutCall key repo) with
    | .errWithResp _ msg => ([repoPutCall key repo], d, some msg)
    | .errNoResp msg => ([repoPutCall key repo], d, some msg)
    | .ok _ =>
      let r := read { d with id := key }
      (repoPutCall key repo :: r.1, r.2.1, r.2.2)

/-- Embedding of the source's `MkRepoUpdate`: unpack, POST keyed by the
stored identity, set the identity to the unpacked key, then, when the
project_key field changed, derive assign/unassign from the old/new pair
(assign when the old value is the default sentinel and the new one
non-empty, unassign when the old value is non-empty and the new one the
default sentinel) and issue the corresponding attach/detach request,
whose failure is surfaced; finally the read function resyncs state. -/
def MkRepoUpdate (unpack : ResourceData → Except String (String × String))
    (read : ResourceData → List HttpCall × ResourceData × Option String)
    (client : HttpCall → RestyResult)
    (d : ResourceData) : List HttpCall × ResourceData × Option String :=
  match unpack d with
  | .error e => ([], d, some e)
  | .ok (repo, key) =>
    match client (repoPostCall d.id repo) with
    | .errWithResp _ msg => ([repoPostCall d.id repo], d, some msg)
    | .errNoResp msg => ([repoPostCall d.id repo], d, some msg)
    | .ok _ =>
      let d1 : ResourceData := { d with id := key }
      if d1.projectKeyChanged then
        let oldProjectKey := d1.projectKeyOld
        let newProjectKey := d1.projectKeyNew
        let assignToProject :=
          oldProjectKey == defaultProjectKey && newProjectKey.length != 0
        let unassignFromProject :=
          oldProjectKey.length != 0 && newProjectKey == defaultProjectKey
        if assignToProject then
          match client (assignRepoToProject key newProjectKey) with
          | .ok _ =>
            let r := read d1
            (repoPostCall d.id repo :: assignRepoToProject key newProjectKey :: r.1,
              r.2.1, r.2.2)
          | .errWithResp _ msg =>
            ([repoPostCall d.id repo, assignRepoToProject key newProjectKey], d1, some msg)
          | .errNoResp msg =>
            ([repoPostCall d.id repo, assignRepoToProject key newProjectKey], d1, some msg)
        else if unassignFromProject then
          match client (unassignRepoFromProject key) with
          | .ok _ =>
            let r := read d1
            (repoPostCall d.id repo :: unassignRepoFromProject key :: r.1, r.2.1, r.2.2)
          | .errWithResp _ msg =>
            ([repoPostCall d.id repo, unassignRepoFromProject key], d1, some msg)
          | .errNoResp msg =>
            ([repoPostCall d.id repo, unassignRepoFromProject key], d1, some msg)
        else
          let r := read d1
          (repoPostCall d.id repo :: r.1, r.2.1, r.2.2)
      else
        let r := read d1
        (repoPostCall d.id repo :: r.1, r.2.1, r.2.2)

/-- Embedding of the source's `DeleteRepo`: a DELETE keyed by the stored
identity; a Go error whose response has status 400 or 404 clears the
identity and returns success; otherwise diag.FromErr of the error is
returned (no diagnostic when the error is nil), leaving the state as it
was. -/
def DeleteRepo (client : HttpCall → RestyResult)
    (d : ResourceData) : List HttpCall × ResourceData × Option String :=
  match client (repoDeleteCall d.id) with
  | .errWithResp status msg =>
    if status == 400 || status == 404 then
      ([repoDeleteCall d.id], { d with id := "" }, none)
    else
      ([repoDeleteCall d.id], d, some msg)
  | .errNoResp msg => ([repoDeleteCall d.id], d, some msg)
  | .ok _ => ([repoDeleteCall d.id], d, none)

lemma string_length_eq_zero_iff (s : String) : s.length = 0 ↔ s = "" := by
  cases s with
  | mk data =>
    constructor
    · intro h
      have hd : data = [] := List.length_eq_zero.mp h
      simp [hd]
    · intro h
      have hd : data = ([] : List Char) := by
        have := congrArg String.data h
        simpa using this
      simp [String.length, hd]

lemma string_append_ne_empty_left (s t : String) (h : s ≠ "") : s ++ t ≠ "" := by
  intro hc
  apply h
  cases s with
  | mk d1 =>
    cases t with
    | mk d2 =>
      have hd : d1 ++ d2 = ([] : List Char) := by
        have := congrArg String.data hc
        simpa [String.append] using this
      have h1 : d1 = [] := (List.append_eq_nil.mp hd).1
      simp [h1]

/-- A packer that stores nothing new: the concrete codecs below feed the
witnesses and counterexamples. -/
def cPack : String → ResourceData → Except String ResourceData :=
  fun _ x => Except.ok x

/-- A constructor that succeeds with an empty zero-value payload. -/
def cConstruct : Except String String := Except.ok ""

/-- A client whose every request succeeds. -/
def cOkClient : HttpCall → RestyResult := fun _ => RestyResult.ok ""

/-- A client whose every request yields a Go error carrying a 404
response. -/
def cNotFoundClient : HttpCall → RestyResult :=
  fun _ => RestyResult.errWithResp 404 "404 page not found"

/-- A client for which writes succeed but the GET resync finds the
resource gone (error with a 404 response). -/
def cReadVanishClient : HttpCall → RestyResult :=
  fun c =>
    match c.method with
    | HttpMethod.get => RestyResult.errWithResp 404 "404 page not found"
    | _ => RestyResult.ok ""

/-- An unpack codec that accepts every declaration, yielding an opaque
payload and the key "repo1". -/
def cIdUnpack : ResourceData → Except String (String × String) :=
  fun _ => Except.ok ("payload", "repo1")

/-- An unpack codec that rejects every declaration. -/
def cErrUnpack : ResourceData → Except String (String × String) :=
  fun _ => Except.error "invalid declaration"

/-- A read function that issues no call and keeps the state as it is. -/
def cIdRead : ResourceData → List HttpCall × ResourceData × Option String :=
  fun x => ([], x, none)

/-- A stored state: identity "repo1", project_key unchanged. -/
def cD : ResourceData := ⟨"repo1", "default", "default", false⟩

/-- A stored state whose project_key changed from the default sentinel to
"teamA". -/
def cDAttach : ResourceData := ⟨"repo1", "default", "teamA", true⟩

/-- A stored state whose project_key changed from "teamA" to the default
sentinel. -/
def cDDetach : ResourceData := ⟨"repo1", "teamA", "default", true⟩

/-- Claim C4 counterexample: the candidate key "ab" has length 2, outside
the 3 to 10 range the claim requires the validator to reject, starts with
no digit and contains no forbidden character, yet `RepoKeyValidator`
accepts it: the validator checks no length bound. -/
theorem RepoKeyValidator_length_unchecked_cx :
    RepoKeyValidator "ab" = true ∧ ("ab" : String).length < 3 := by
  constructor
  · decide
  · decide

/-- Claim C4 (amended): `RepoKeyValidator` rejects a candidate repository
key exactly when it starts with a decimal digit or contains a character
of the forbidden set (space, punctuation, backtick, backslash); the 3 to
10 length bound stated in the schema description is not enforced by the
validator. -/
theorem RepoKeyValidator_reject_iff (s : String) :
    RepoKeyValidator s = false ↔
      (∃ c, s.toList.head? = some c ∧ c.isDigit = true) ∨
      (∃ c ∈ s.toList, c ∈ repoKeyForbiddenChars) := by
  unfold RepoKeyValidator StringDoesNotMatchLeadingDigit StringDoesNotContainAny
  cases h : s.toList with
  | nil => simp [h]
  | cons c rest =>
    simp only [h, Bool.and_eq_false_iff, Bool.not_eq_false', List.head?_cons,
      Option.some.injEq, List.any_eq_true, Bool.not_eq_false]
    constructor
    · rintro (hd | ⟨x, hx, hmem⟩)
      · exact Or.inl ⟨c, rfl, hd⟩
      · exact Or.inr ⟨x, hx, (List.elem_iff).mp hmem⟩
    · rintro (⟨c', hc', hd⟩ | ⟨x, hx, hmem⟩)
      · exact Or.inl (hc' ▸ hd)
      · exact Or.inr ⟨x, hx, (List.elem_iff).mpr hmem⟩

/-- Claim C6 counterexample: at server version 7.53.1 a three-element
environment set has more than one element, yet `ProjectEnvironmentsDiff`
returns no error: the code only rejects sets of exactly two elements. -/
theorem ProjectEnvironmentsDiff_three_elements_cx :
    ProjectEnvironmentsDiff (some ⟨7, 53, 1⟩) (some ["ENV1", "ENV2", "ENV3"]) = none ∧
    versionAtLeast ⟨7, 53, 1⟩ CustomProjectEnvironmentSupportedVersion = true ∧
    1 < (["ENV1", "ENV2", "ENV3"] : List String).length := by
  refine ⟨by decide, by decide, by decide⟩

/-- Claim C6 (amended): for a non-empty project_environments set with a
parsable server version, `ProjectEnvironmentsDiff` returns an error
exactly when either the version is at or after 7.53.1 and the set has
exactly two elements, or the version is before 7.53.1 and some element is
outside the allow-list of DEV and PROD; in all other cases it returns no
error (the function only reports, it mutates nothing). -/
theorem ProjectEnvironmentsDiff_error_iff (v : Version) (envs : List String)
    (hne : envs ≠ []) :
    ProjectEnvironmentsDiff (some v) (some envs) ≠ none ↔
      (versionAtLeast v CustomProjectEnvironmentSupportedVersion = true ∧
        envs.length = 2) ∨
      (versionAtLeast v CustomProjectEnvironmentSupportedVersion = false ∧
        ∃ e ∈ envs, e ∉ ProjectEnvironmentsSupported) := by
  unfold ProjectEnvironmentsDiff CheckVersion
  cases hsup : versionAtLeast v CustomProjectEnvironmentSupportedVersion with
  | true =>
    simp only [Option.map_some', hsup, if_true]
    by_cases hl : envs.length = 2 <;> simp [hl]
  | false =>
    simp only [Option.map_some', hsup, Bool.false_eq_true, if_false, false_and,
      false_or, true_and, eq_self_iff_true]
    cases hf : envs.find? (fun e => !(ProjectEnvironmentsSupported.contains e)) with
    | none =>
      simp only [ne_eq, not_true_eq_false, false_iff, not_exists, not_and, not_not]
      intro e he
      have hcontains := List.find?_eq_none.mp hf e he
      simpa using hcontains
    | some e =>
      simp only [ne_eq, reduceCtorEq, not_false_eq_true, true_iff]
      refine ⟨e, List.mem_of_find?_eq_some hf, ?_⟩
      have hp := List.find?_some hf
      simpa using hp

/-- Witness for the amended C6 theorem: at version 7.53.1 the two-element
set of DEV and PROD is rejected. -/
theorem ProjectEnvironmentsDiff_error_iff_witness :
    ProjectEnvironmentsDiff (some ⟨7, 53, 1⟩) (some ["DEV", "PROD"]) ≠ none :=
  (ProjectEnvironmentsDiff_error_iff ⟨7, 53, 1⟩ ["DEV", "PROD"] (by decide)).mpr
    (Or.inl ⟨by decide, by decide⟩)

/-- Claim C10: when the project_environments field is unset in the diff,
`ProjectEnvironmentsDiff` returns no error for every server version
(parsable or not); and at or after version 7.53.1 it errors exactly on
sets of exactly two elements, so in particular a one-element set is
accepted whatever its string value. -/
theorem ProjectEnvironmentsDiff_unset_and_single_ok :
    (∀ version : Option Version, ProjectEnvironmentsDiff version none = none) ∧
    (∀ (v : Version) (envs : List String),
        versionAtLeast v CustomProjectEnvironmentSupportedVersion = true →
        (ProjectEnvironmentsDiff (some v) (some envs) = none ↔ envs.length ≠ 2)) ∧
    (∀ (v : Version) (e : String),
        versionAtLeast v CustomProjectEnvironmentSupportedVersion = true →
        ProjectEnvironmentsDiff (some v) (some [e]) = none) := by
  refine ⟨fun version => rfl, ?_, ?_⟩
  · intro v envs hsup
    unfold ProjectEnvironmentsDiff CheckVersion
    simp only [Option.map_some', hsup, if_true]
    by_cases hl : envs.length = 2 <;> simp [hl]
  · intro v e hsup
    unfold ProjectEnvironmentsDiff CheckVersion
    simp [hsup]

/-- Witness for the C10 theorem: a one-element set with a custom
environment name passes at version 7.53.1, and an unset field passes with
an unparsable version. -/
theorem ProjectEnvironmentsDiff_unset_and_single_ok_witness :
    ProjectEnvironmentsDiff (some ⟨7, 53, 1⟩) (some ["custom-env"]) = none ∧
    ProjectEnvironmentsDiff none none = none :=
  ⟨ProjectEnvironmentsDiff_unset_and_single_ok.2.2 ⟨7, 53, 1⟩ "custom-env" (by decide),
    ProjectEnvironmentsDiff_unset_and_single_ok.1 none⟩

/-- Claim C8: `GetDefaultRepoLayoutRef` is a pure lookup in the static
table: a pair whose repository type is marked supported for the package
type yields that package type's default layout; an unsupported pair
yields the error message naming both the repository type and the package
type. No network is involved: the function is a pure function of its two
arguments. -/
theorem GetDefaultRepoLayoutRef_spec (rt pt : String) :
    (∀ classes, defaultRepoLayoutMap.lookup pt = some classes →
        classes.SupportedRepoTypes.lookup rt = some true →
        GetDefaultRepoLayoutRef rt pt = Except.ok classes.RepoLayoutRef) ∧
    (repoLayoutSupported rt pt = false →
        GetDefaultRepoLayoutRef rt pt = Except.error
          ("default repo layout not found for repository type " ++ rt
            ++ " & package type " ++ pt)) := by
  constructor
  · intro classes hpt hrt
    simp only [GetDefaultRepoLayoutRef, hpt, hrt]
  · intro hsup
    unfold repoLayoutSupported at hsup
    cases hpt : defaultRepoLayoutMap.lookup pt with
    | none => simp only [GetDefaultRepoLayoutRef, hpt]
    | some classes =>
      cases hrt : classes.SupportedRepoTypes.lookup rt with
      | none => simp only [GetDefaultRepoLayoutRef, hpt, hrt]
      | some b =>
        cases b with
        | false => simp only [GetDefaultRepoLayoutRef, hpt, hrt]
        | true =>
          rw [hpt] at hsup
          simp [hrt] at hsup

/-- Witness for the C8 theorem: the supported pair ("local", "maven")
yields the maven default layout, and the unsupported pair
("local", "terraform") yields the error naming both inputs. -/
theorem GetDefaultRepoLayoutRef_spec_witness :
    GetDefaultRepoLayoutRef "local" "maven" = Except.ok "maven-2-default" ∧
    GetDefaultRepoLayoutRef "local" "terraform" = Except.error
      ("default repo layout not found for repository type local & package type terraform") :=
  ⟨(GetDefaultRepoLayoutRef_spec "local" "maven").1
      { RepoLayoutRef := "maven-2-default",
        SupportedRepoTypes :=
          [("local", true), ("remote", true), ("virtual", true), ("federated", true)] }
      (by decide) (by decide),
    (GetDefaultRepoLayoutRef_spec "local" "terraform").2 (by decide)⟩

/-- Claim C9: `HandleResetWithNonExistentValue` returns the sentinel
(prefix "non-existant-value-" followed by the drawn random integer, hence
non-empty) exactly when the field's current value is the empty string and
the field has a pending change; in every other case it returns the stored
field value unchanged. -/
theorem HandleResetWithNonExistentValue_spec (value : String) (hasChange : Bool)
    (r : Nat) :
    (value = "" → hasChange = true →
        HandleResetWithNonExistentValue value hasChange r
            = "non-existant-value-" ++ toString r ∧
        HandleResetWithNonExistentValue value hasChange r ≠ "" ∧
        ∃ suffix, HandleResetWithNonExistentValue value hasChange r
            = "non-existant-value-" ++ suffix) ∧
    (¬(value = "" ∧ hasChange = true) →
        HandleResetWithNonExistentValue value hasChange r = value) := by
  constructor
  · intro hv hc
    subst hv
    subst hc
    refine ⟨rfl, ?_, ⟨toString r, rfl⟩⟩
    exact string_append_ne_empty_left _ _ (by decide)
  · intro h
    unfold HandleResetWithNonExistentValue
    by_cases hv : value = ""
    · have hc : hasChange = false := by
        cases hasChange with
        | true => exact absurd ⟨hv, rfl⟩ h
        | false => rfl
      simp [hv, hc]
    · simp [hv]

/-- Witness for the C9 theorem: an empty changed field yields the
sentinel, a non-empty one is returned unchanged. -/
theorem HandleResetWithNonExistentValue_spec_witness :
    HandleResetWithNonExistentValue "" true 7 = "non-existant-value-" ++ toString 7 ∧
    HandleResetWithNonExistentValue "keep" true 7 = "keep" :=
  ⟨((HandleResetWithNonExistentValue_spec "" true 7).1 rfl rfl).1,
    (HandleResetWithNonExistentValue_spec "keep" true 7).2 (by simp)⟩

/-- Claim C5: when the Unpack function rejects the declaration,
`MkRepoCreate` returns the validation diagnostic at once: its call trace
is empty (no HTTP request) and the state, the identity included, is left
untouched. -/
theorem MkRepoCreate_unpack_error (unpack : ResourceData → Except String (String × String))
    (read : ResourceData → List HttpCall × ResourceData × Option String)
    (client : HttpCall → RestyResult) (d : ResourceData) (e : String)
    (h : unpack d = Except.error e) :
    MkRepoCreate unpack read client d = ([], d, some e) := by
  unfold MkRepoCreate
  rw [h]

/-- Witness for the C5 theorem: a rejecting unpack aborts Create with the
validation error, no call issued and the state unchanged. -/
theorem MkRepoCreate_unpack_error_witness :
    MkRepoCreate cErrUnpack cIdRead cOkClient cD = ([], cD, some "invalid declaration") :=
  MkRepoCreate_unpack_error cErrUnpack cIdRead cOkClient cD "invalid declaration" rfl

/-- Claim C2: when the GET issued by `MkRepoRead` comes back as a Go
error whose response has status 400 or 404, Read clears the stored
identity and returns success, with the same resulting state for both
status codes; a Go error with any other status, or with no response at
all, is surfaced unchanged as the diagnostic and the state, the identity
included, is left exactly as it was. -/
theorem MkRepoRead_absent_normalization
    (pack : String → ResourceData → Except String ResourceData)
    (construct : Except String String)
    (client : HttpCall → RestyResult) (d : ResourceData) (c : String)
    (hc : construct = Except.ok c) :
    (∀ m, client (repoGetCall d.id) = RestyResult.errWithResp 400 m →
        MkRepoRead pack construct client d
          = ([repoGetCall d.id], { d with id := "" }, none)) ∧
    (∀ m, client (repoGetCall d.id) = RestyResult.errWithResp 404 m →
        MkRepoRead pack construct client d
          = ([repoGetCall d.id], { d with id := "" }, none)) ∧
    (∀ status m, client (repoGetCall d.id) = RestyResult.errWithResp status m →
        status ≠ 400 → status ≠ 404 →
        MkRepoRead pack construct client d = ([repoGetCall d.id], d, some m)) ∧
    (∀ m, client (repoGetCall d.id) = RestyResult.errNoResp m →
        MkRepoRead pack construct client d = ([repoGetCall d.id], d, some m)) := by
  subst hc
  refine ⟨?_, ?_, ?_, ?_⟩
  · intro m h
    simp [MkRepoRead, h]
  · intro m h
    simp [MkRepoRead, h]
  · intro status m h h400 h404
    simp [MkRepoRead, h, h400, h404]
  · intro m h
    simp [MkRepoRead, h]

/-- Witness for the C2 theorem: a 404-carrying Go error on the GET makes
Read clear the identity and return no diagnostic. -/
theorem MkRepoRead_absent_normalization_witness :
    MkRepoRead cPack (Except.ok "") cNotFoundClient cD
      = ([repoGetCall "repo1"], { cD with id := "" }, none) :=
  (MkRepoRead_absent_normalization cPack (Except.ok "") cNotFoundClient cD "" rfl).2.1
    "404 page not found" rfl

/-- Claim C7: when the DELETE issued by `DeleteRepo` comes back as a Go
error whose response has status 400 or 404, Delete treats the resource as
already deleted, clearing the stored identity and returning success; a Go
error with any other status, or with no response, propagates unchanged as
the diagnostic with the state untouched. -/
theorem DeleteRepo_absent_normalization
    (client : HttpCall → RestyResult) (d : ResourceData) :
    (∀ m, client (repoDeleteCall d.id) = RestyResult.errWithResp 400 m →
        DeleteRepo client d = ([repoDeleteCall d.id], { d with id := "" }, none)) ∧
    (∀ m, client (repoDeleteCall d.id) = RestyResult.errWithResp 404 m →
        DeleteRepo client d = ([repoDeleteCall d.id], { d with id := "" }, none)) ∧
    (∀ status m, client (repoDeleteCall d.id) = RestyResult.errWithResp status m →
        status ≠ 400 → status ≠ 404 →
        DeleteRepo client d = ([repoDeleteCall d.id], d, some m)) ∧
    (∀ m, client (repoDeleteCall d.id) = RestyResult.errNoResp m →
        DeleteRepo client d = ([repoDeleteCall d.id], d, some m)) := by
  refine ⟨?_, ?_, ?_, ?_⟩
  · intro m h
    simp [DeleteRepo, h]
  · intro m h
    simp [DeleteRepo, h]
  · intro status m h h400 h404
    simp [DeleteRepo, h, h400, h404]
  · intro m h
    simp [DeleteRepo, h]

/-- Witness for the C7 theorem: a 404-carrying Go error on the DELETE
makes Delete clear the identity and return no diagnostic. -/
theorem DeleteRepo_absent_normalization_witness :
    DeleteRepo cNotFoundClient cD = ([repoDeleteCall "repo1"], { cD with id := "" }, none) :=
  (DeleteRepo_absent_normalization cNotFoundClient cD).2.1 "404 page not found" rfl

lemma MkRepoRead_calls
    (pack : String → ResourceData → Except String ResourceData)
    (construct : Except String String)
    (client : HttpCall → RestyResult) (d : ResourceData) :
    (MkRepoRead pack construct client d).1 = [] ∨
    (MkRepoRead pack construct client d).1 = [repoGetCall d.id] := by
  unfold MkRepoRead
  split
  · exact Or.inl rfl
  · split
    · split
      · exact Or.inr rfl
      · exact Or.inr rfl
    · split
      · exact Or.inr rfl
      · exact Or.inr rfl
    · exact Or.inr rfl

lemma MkRepoRead_filter_attach
    (pack : String → ResourceData → Except String ResourceData)
    (construct : Except String String)
    (client : HttpCall → RestyResult) (d : ResourceData) :
    (MkRepoRead pack construct client d).1.filter isProjectAttachCall = [] := by
  have hg : isProjectAttachCall (repoGetCall d.id) = false := rfl
  rcases MkRepoRead_calls pack construct client d with h | h <;> rw [h] <;> simp [hg]

lemma MkRepoRead_filter_detach
    (pack : String → ResourceData → Except String ResourceData)
    (construct : Except String String)
    (client : HttpCall → RestyResult) (d : ResourceData) :
    (MkRepoRead pack construct client d).1.filter isProjectDetachCall = [] := by
  have hg : isProjectDetachCall (repoGetCall d.id) = false := rfl
  rcases MkRepoRead_calls pack construct client d with h | h <;> rw [h] <;> simp [hg]

/-- Claim C1: on an Update whose project_key changed (so old and new
values differ) and whose main POST succeeded, the call trace contains
exactly one attach call, with path parameters repoKey and the new project
key, when the old value is the default sentinel and the new one
non-empty; exactly one detach call, with path parameter repoKey, when the
old value is non-empty and the new one the default sentinel; and no
attach or detach call in every other case, project-to-project
reassignment included. -/
theorem MkRepoUpdate_projectKey_attach_detach
    (unpack : ResourceData → Except String (String × String))
    (pack : String → ResourceData → Except String ResourceData)
    (construct : Except String String)
    (client : HttpCall → RestyResult)
    (d : ResourceData) (b k body : String)
    (hch : d.projectKeyChanged = true)
    (hne : d.projectKeyOld ≠ d.projectKeyNew)
    (hu : unpack d = Except.ok (b, k))
    (hpost : client (repoPostCall d.id b) = RestyResult.ok body) :
    ((d.projectKeyOld = defaultProjectKey ∧ d.projectKeyNew ≠ "") →
        (MkRepoUpdate unpack (MkRepoRead pack construct client) client d).1.filter
            isProjectAttachCall = [assignRepoToProject k d.projectKeyNew] ∧
        (MkRepoUpdate unpack (MkRepoRead pack construct client) client d).1.filter
            isProjectDetachCall = []) ∧
    ((d.projectKeyOld ≠ "" ∧ d.projectKeyNew = defaultProjectKey) →
        (MkRepoUpdate unpack (MkRepoRead pack construct client) client d).1.filter
            isProjectDetachCall = [unassignRepoFromProject k] ∧
        (MkRepoUpdate unpack (MkRepoRead pack construct client) client d).1.filter
            isProjectAttachCall = []) ∧
    ((¬(d.projectKeyOld = defaultProjectKey ∧ d.projectKeyNew ≠ "") ∧
      ¬(d.projectKeyOld ≠ "" ∧ d.projectKeyNew = defaultProjectKey)) →
        (MkRepoUpdate unpack (MkRepoRead pack construct client) client d).1.filter
            isProjectAttachCall = [] ∧
        (MkRepoUpdate unpack (MkRepoRead pack construct client) client d).1.filter
            isProjectDetachCall = []) := by
  have hA := MkRepoRead_filter_attach pack construct client
  have hD := MkRepoRead_filter_detach pack construct client
  have ePostA : ∀ x y, isProjectAttachCall (repoPostCall x y) = false := fun x y => rfl
  have ePostD : ∀ x y, isProjectDetachCall (repoPostCall x y) = false := fun x y => rfl
  have eAA : ∀ x y, isProjectAttachCall (assignRepoToProject x y) = true := fun x y => rfl
  have eAD : ∀ x y, isProjectDetachCall (assignRepoToProject x y) = false := fun x y => rfl
  have eUA : ∀ x, isProjectAttachCall (unassignRepoFromProject x) = false := fun x => rfl
  have eUD : ∀ x, isProjectDetachCall (unassignRepoFromProject x) = true := fun x => rfl
  refine ⟨?_, ?_, ?_⟩
  · rintro ⟨h1, h2⟩
    have hb1 : (d.projectKeyOld == defaultProjectKey) = true := by simp [h1]
    have hb2 : (d.projectKeyNew.length != 0) = true := by
      refine bne_iff_ne.mpr ?_
      intro hz
      exact h2 ((string_length_eq_zero_iff _).mp hz)
    simp only [MkRepoUpdate, hu, hpost, hch, hb1, hb2, Bool.and_self, if_true]
    cases hatt : client (assignRepoToProject k d.projectKeyNew) with
    | ok body2 => exact ⟨by simp [ePostA, eAA, hA], by simp [ePostD, eAD, hD]⟩
    | errWithResp status msg => exact ⟨by simp [ePostA, eAA], by simp [ePostD, eAD]⟩
    | errNoResp msg => exact ⟨by simp [ePostA, eAA], by simp [ePostD, eAD]⟩
  · rintro ⟨h1, h2⟩
    have hb1 : (d.projectKeyOld == defaultProjectKey) = false := by
      have hod : d.projectKeyOld ≠ defaultProjectKey := fun he => hne (he.trans h2.symm)
      simp [hod]
    have hb2 : (d.projectKeyOld.length != 0) = true := by
      refine bne_iff_ne.mpr ?_
      intro hz
      exact h1 ((string_length_eq_zero_iff _).mp hz)
    have hb3 : (d.projectKeyNew == defaultProjectKey) = true := by simp [h2]
    simp only [MkRepoUpdate, hu, hpost, hch, hb1, hb2, hb3, Bool.false_and, Bool.and_self,
      if_true, if_false, Bool.false_eq_true]
    cases hatt : client (unassignRepoFromProject k) with
    | ok body2 => exact ⟨by simp [ePostD, eUD, hD], by simp [ePostA, eUA, hA]⟩
    | errWithResp status msg => exact ⟨by simp [ePostD, eUD], by simp [ePostA, eUA]⟩
    | errNoResp msg => exact ⟨by simp [ePostD, eUD], by simp [ePostA, eUA]⟩
  · rintro ⟨hn1, hn2⟩
    have hassign : (d.projectKeyOld == defaultProjectKey && d.projectKeyNew.length != 0)
        = false := by
      by_cases ho : d.projectKeyOld = defaultProjectKey
      · have hnew : d.projectKeyNew = "" := by
          by_contra hne2
          exact hn1 ⟨ho, hne2⟩
        simp [hnew]
      · simp [ho]
    have hunassign : (d.projectKeyOld.length != 0 && d.projectKeyNew == defaultProjectKey)
        = false := by
      by_cases hnw : d.projectKeyNew = defaultProjectKey
      · have hold : d.projectKeyOld = "" := by
          by_contra h0
          exact hn2 ⟨h0, hnw⟩
        simp [hold]
      · simp [hnw]
    simp only [MkRepoUpdate, hu, hpost, hch, hassign, hunassign, if_true, if_false,
      Bool.false_eq_true]
    exact ⟨by simp [ePostA, hA], by simp [ePostD, hD]⟩

/-- Witness for the C1 theorem: with project_key changing from the
default sentinel to "teamA" and every request succeeding, the trace holds
exactly the attach call with path params repoKey "repo1" and projectKey
"teamA" and no detach call. -/
theorem MkRepoUpdate_projectKey_attach_detach_witness :
    (MkRepoUpdate cIdUnpack (MkRepoRead cPack cConstruct cOkClient) cOkClient cDAttach).1.filter
        isProjectAttachCall = [assignRepoToProject "repo1" "teamA"] ∧
    (MkRepoUpdate cIdUnpack (MkRepoRead cPack cConstruct cOkClient) cOkClient cDAttach).1.filter
        isProjectDetachCall = [] :=
  (MkRepoUpdate_projectKey_attach_detach cIdUnpack cPack cConstruct cOkClient cDAttach
      "payload" "repo1" "" rfl (by decide) rfl rfl).1 ⟨rfl, by decide⟩

/-- Claim C3 counterexample: an Update whose POST succeeds but whose
trailing Read finds the repository gone (404) reports success while
mutating the stored identity from "repo1" to empty, and a Delete whose
DELETE succeeds reports success while leaving the identity set: Update
can mutate the identity, and successful Delete does not clear it. -/
theorem identity_lifecycle_cx :
    (MkRepoUpdate cIdUnpack (MkRepoRead cPack cConstruct cReadVanishClient)
        cReadVanishClient cD).2.2 = none ∧
    ((MkRepoUpdate cIdUnpack (MkRepoRead cPack cConstruct cReadVanishClient)
        cReadVanishClient cD).2.1).id = "" ∧
    cD.id = "repo1" ∧
    (DeleteRepo cOkClient cD).2.2 = none ∧
    ((DeleteRepo cOkClient cD).2.1).id = "repo1" := by
  refine ⟨rfl, rfl, rfl, rfl, rfl⟩

/-- Claim C3 (amended): Update writes the key returned by Unpack into the
identity, so whenever that key equals the prior identity (guaranteed in
framework-legal calls, the key field being ForceNew) and the trailing
Read preserves the identity, Update leaves the identity unchanged on
every path; Create sets the identity to the unpacked key after a
successful write; Delete clears the identity exactly when the DELETE
reports 400 or 404, and on any other outcome, success included, leaves
the state untouched (successful deletion returns no diagnostic, state
removal being the caller's job). -/
theorem identity_lifecycle
    (unpack : ResourceData → Except String (String × String))
    (read : ResourceData → List HttpCall × ResourceData × Option String)
    (client : HttpCall → RestyResult) (d : ResourceData)
    (hread : ∀ x, ((read x).2.1).id = x.id) :
    ((∀ b k, unpack d = Except.ok (b, k) → k = d.id) →
        ((MkRepoUpdate unpack read client d).2.1).id = d.id) ∧
    (∀ b k body, unpack d = Except.ok (b, k) →
        client (repoPutCall k b) = RestyResult.ok body →
        ((MkRepoCreate unpack read client d).2.1).id = k) ∧
    (∀ m, client (repoDeleteCall d.id) = RestyResult.errWithResp 400 m →
        ((DeleteRepo client d).2.1).id = "") ∧
    (∀ m, client (repoDeleteCall d.id) = RestyResult.errWithResp 404 m →
        ((DeleteRepo client d).2.1).id = "") ∧
    (∀ status m, client (repoDeleteCall d.id) = RestyResult.errWithResp status m →
        status ≠ 400 → status ≠ 404 → (DeleteRepo client d).2.1 = d) ∧
    (∀ m, client (repoDeleteCall d.id) = RestyResult.errNoResp m →
        (DeleteRepo client d).2.1 = d) ∧
    (∀ body, client (repoDeleteCall d.id) = RestyResult.ok body →
        (DeleteRepo client d).2.1 = d ∧ (DeleteRepo client d).2.2 = none) := by
  refine ⟨?_, ?_, ?_, ?_, ?_, ?_, ?_⟩
  · intro hk
    cases hu : unpack d with
    | error e => simp [MkRepoUpdate, hu]
    | ok pr =>
      obtain ⟨b, k⟩ := pr
      have hkd : k = d.id := hk b k hu
      cases hcl : client (repoPostCall d.id b) with
      | errWithResp status msg => simp [MkRepoUpdate, hu, hcl]
      | errNoResp msg => simp [MkRepoUpdate, hu, hcl]
      | ok body =>
        subst hkd
        simp only [MkRepoUpdate, hu, hcl]
        split
        · split
          · split <;> simp [hread]
          · split
            · split <;> simp [hread]
            · simp [hread]
        · simp [hread]
  · intro b k body hu hput
    simp only [MkRepoCreate, hu, hput]
    simp [hread]
  · intro m h
    simp [DeleteRepo, h]
  · intro m h
    simp [DeleteRepo, h]
  · intro status m h h400 h404
    simp [DeleteRepo, h, h400, h404]
  · intro m h
    simp [DeleteRepo, h]
  · intro body h
    simp [DeleteRepo, h]

/-- Witness for the amended C3 theorem: with an identity-preserving read,
an unpack whose key matches the stored identity and an all-ok client,
Update keeps the identity and Create sets it to the unpacked key. -/
theorem identity_lifecycle_witness :
    ((MkRepoUpdate cIdUnpack cIdRead cOkClient cD).2.1).id = cD.id ∧
    ((MkRepoCreate cIdUnpack cIdRead cOkClient cD).2.1).id = "repo1" :=
  ⟨(identity_lifecycle cIdUnpack cIdRead cOkClient cD (fun x => rfl)).1
      (fun b k h => by
        simp only [cIdUnpack, Except.ok.injEq, Prod.mk.injEq] at h
        exact h.2.symm),
    (identity_lifecycle cIdUnpack cIdRead cOkClient cD (fun x => rfl)).2.1
      "payload" "repo1" "" rfl rfl⟩

/-- Witness for the amended C4 theorem: "bad key" contains a space of the
forbidden set, so the validator rejects it. -/
theorem RepoKeyValidator_reject_iff_witness : RepoKeyValidator "bad key" = false :=
  (RepoKeyValidator_reject_iff "bad key").mpr
    (Or.inr ⟨' ', by decide, by decide⟩)
